import Mathlib

/-!
Verification development for the normal-approximation CHIME pipeline
(`How-to-use-normal-approximations-module.ipynb`).

The notebook drives an SEIR compartment model under a first-order
("gvar"-style) uncertainty-propagation algebra.  The algebra, the model,
the post-processing and the fit engine live outside the notebook, so they
are modelled here from the specification; the notebook's own code
(`update_parameters`, the OFFSET bookkeeping, the `name_map` renaming) is
embedded directly from its source.

Numbers are modelled as exact rationals (`ℚ`) where the properties are
algebraic, and as 2^20-denominator fixed-point integers (`Fx`) where a
concrete 30-day simulation has to be evaluated (standing in for the
float64 arithmetic of the source, whose exact rational iteration is
infeasible to evaluate).
-/

namespace ChimeNormal

/-- Modelled from the spec (§2, §4.1; the `gvar` package is external to
`src/`): an uncertain value is a mean together with the vector of
first-order derivative coefficients with respect to independent
unit-variance primitive sources; the coefficient list is the
"covariance-context" that links values sharing derivation ancestry. -/
structure UV (α : Type) where
  mean : α
  deriv : List α
deriving DecidableEq

/-- Pointwise sum of two derivative-coefficient lists, the shorter one
padded with (implicit) zeros. -/
def padAdd {α : Type} [Add α] : List α → List α → List α
  | [], ys => ys
  | x :: xs, [] => x :: xs
  | x :: xs, y :: ys => (x + y) :: padAdd xs ys

/-- Pointwise difference of two derivative-coefficient lists, the shorter
one padded with (implicit) zeros. -/
def padSub {α : Type} [Sub α] [Neg α] : List α → List α → List α
  | [], ys => ys.map (fun y => -y)
  | x :: xs, [] => x :: xs
  | x :: xs, y :: ys => (x - y) :: padSub xs ys

instance {α : Type} [Add α] : Add (UV α) :=
  ⟨fun a b => ⟨a.mean + b.mean, padAdd a.deriv b.deriv⟩⟩

instance {α : Type} [Zero α] : Zero (UV α) := ⟨⟨0, []⟩⟩

instance {α : Type} [AddCommMonoid α] : AddCommMonoid (UV α) where
  add_assoc a b c := by
    have hnilR : ∀ xs : List α, padAdd xs [] = xs := fun xs => by cases xs <;> rfl
    have hnilL : ∀ ys : List α, padAdd [] ys = ys := fun ys => by cases ys <;> rfl
    have hpad : ∀ xs ys zs : List α,
        padAdd (padAdd xs ys) zs = padAdd xs (padAdd ys zs) := by
      intro xs
      induction xs with
      | nil => intro ys zs; rw [hnilL, hnilL]
      | cons x xs ih =>
        intro ys zs
        cases ys with
        | nil => rw [hnilR, hnilL]
        | cons y ys =>
          cases zs with
          | nil => rw [hnilR, hnilR]
          | cons z zs => simp [padAdd, add_assoc, ih]
    obtain ⟨ma, da⟩ := a
    obtain ⟨mb, db⟩ := b
    obtain ⟨mc, dc⟩ := c
    show UV.mk ((ma + mb) + mc) (padAdd (padAdd da db) dc)
        = UV.mk (ma + (mb + mc)) (padAdd da (padAdd db dc))
    rw [add_assoc, hpad]
  zero_add a := by
    have hnilL : ∀ ys : List α, padAdd [] ys = ys := fun ys => by cases ys <;> rfl
    obtain ⟨m, d⟩ := a
    show UV.mk (0 + m) (padAdd [] d) = UV.mk m d
    rw [zero_add, hnilL]
  add_zero a := by
    have hnilR : ∀ xs : List α, padAdd xs [] = xs := fun xs => by cases xs <;> rfl
    obtain ⟨m, d⟩ := a
    show UV.mk (m + 0) (padAdd d []) = UV.mk m d
    rw [add_zero, hnilR]
  add_comm a b := by
    have hnilR : ∀ xs : List α, padAdd xs [] = xs := fun xs => by cases xs <;> rfl
    have hnilL : ∀ ys : List α, padAdd [] ys = ys := fun ys => by cases ys <;> rfl
    have hpad : ∀ xs ys : List α, padAdd xs ys = padAdd ys xs := by
      intro xs
      induction xs with
      | nil => intro ys; rw [hnilL, hnilR]
      | cons x xs ih =>
        intro ys
        cases ys with
        | nil => rw [hnilR, hnilL]
        | cons y ys => simp [padAdd, add_comm, ih]
    obtain ⟨ma, da⟩ := a
    obtain ⟨mb, db⟩ := b
    show UV.mk (ma + mb) (padAdd da db) = UV.mk (mb + ma) (padAdd db da)
    rw [add_comm, hpad]
  nsmul := nsmulRec
  nsmul_zero := fun _ => rfl
  nsmul_succ := fun _ _ => rfl

instance {α : Type} [Sub α] [Neg α] : Sub (UV α) :=
  ⟨fun a b => ⟨a.mean - b.mean, padSub a.deriv b.deriv⟩⟩

instance {α : Type} [Neg α] : Neg (UV α) :=
  ⟨fun a => ⟨-a.mean, a.deriv.map (fun x => -x)⟩⟩

/-- First-order product rule: the derivative of `a * b` is
`a.mean • b.deriv + b.mean • a.deriv`. -/
instance {α : Type} [AddCommMonoid α] [Mul α] : Mul (UV α) :=
  ⟨fun a b =>
    ⟨a.mean * b.mean,
     padAdd (a.deriv.map (fun x => b.mean * x)) (b.deriv.map (fun x => a.mean * x))⟩⟩

/-- First-order quotient rule: the derivative of `a / b` is
`a.deriv / b.mean - (a.mean / b.mean ^ 2) • b.deriv`. -/
instance {α : Type} [AddCommMonoid α] [Mul α] [Div α] [Neg α] : Div (UV α) :=
  ⟨fun a b =>
    ⟨a.mean / b.mean,
     padAdd (a.deriv.map (fun x => x / b.mean))
       (b.deriv.map (fun x => -(a.mean / (b.mean * b.mean)) * x))⟩⟩

instance {α : Type} [One α] : One (UV α) := ⟨⟨1, []⟩⟩

/-- Promotion of a plain scalar to a zero-variance uncertain value
(spec §4.1: "promoting a scalar to a zero-variance UncertainValue"). -/
def UV.const {α : Type} (c : α) : UV α := ⟨c, []⟩

/-- Variance of an uncertain value: the sum of the squares of its
derivative coefficients with respect to the unit-variance primitives. -/
def UV.variance {α : Type} [AddCommMonoid α] [Mul α] (a : UV α) : α :=
  (a.deriv.map (fun x => x * x)).sum

/-- Modelled from the spec: `gvar mean sdev idx` creates a fresh
independent Gaussian variable backed by primitive source number `idx`
(the source-allocation counter of the external `gvar` package). -/
def gvar {α : Type} [Zero α] (m s : α) (idx : ℕ) : UV α :=
  ⟨m, List.replicate idx 0 ++ [s]⟩

@[simp] lemma UV.mean_add {α : Type} [AddCommMonoid α] (a b : UV α) :
    (a + b).mean = a.mean + b.mean := rfl

@[simp] lemma UV.deriv_add {α : Type} [AddCommMonoid α] (a b : UV α) :
    (a + b).deriv = padAdd a.deriv b.deriv := rfl

@[simp] lemma UV.mean_sub {α : Type} [Sub α] [Neg α] (a b : UV α) :
    (a - b).mean = a.mean - b.mean := rfl

@[simp] lemma UV.deriv_sub {α : Type} [Sub α] [Neg α] (a b : UV α) :
    (a - b).deriv = padSub a.deriv b.deriv := rfl

@[simp] lemma UV.mean_mul {α : Type} [AddCommMonoid α] [Mul α] (a b : UV α) :
    (a * b).mean = a.mean * b.mean := rfl

@[simp] lemma UV.mean_div {α : Type} [AddCommMonoid α] [Mul α] [Div α] [Neg α]
    (a b : UV α) : (a / b).mean = a.mean / b.mean := rfl

/-- Fixed-point number with denominator `2^20`, standing in for the
float64 arithmetic of the source when a many-step simulation has to be
evaluated concretely (exact rational iteration of the quadratic SEIR map
is infeasible).  The represented value is `num / 2^20`. -/
structure Fx where
  num : ℤ
deriving DecidableEq

/-- Scaling denominator of the `Fx` fixed-point representation. -/
def fxScale : ℤ := 1048576

instance : Add Fx := ⟨fun a b => ⟨a.num + b.num⟩⟩

instance : Zero Fx := ⟨⟨0⟩⟩

instance : AddCommMonoid Fx where
  add_assoc a b c := congrArg Fx.mk (add_assoc a.num b.num c.num)
  zero_add a := congrArg Fx.mk (zero_add a.num)
  add_zero a := congrArg Fx.mk (add_zero a.num)
  add_comm a b := congrArg Fx.mk (add_comm a.num b.num)
  nsmul := nsmulRec
  nsmul_zero := fun _ => rfl
  nsmul_succ := fun _ _ => rfl

instance : Neg Fx := ⟨fun a => ⟨-a.num⟩⟩

instance : Sub Fx := ⟨fun a b => ⟨a.num - b.num⟩⟩

/-- Fixed-point product, rounding the `2^40`-denominator intermediate
back to denominator `2^20` (floor rounding). -/
instance : Mul Fx := ⟨fun a b => ⟨Int.fdiv (a.num * b.num) fxScale⟩⟩

/-- Fixed-point quotient with floor rounding (quotient by zero is zero,
as for `Int.fdiv`). -/
instance : Div Fx := ⟨fun a b => ⟨Int.fdiv (a.num * fxScale) b.num⟩⟩

instance : One Fx := ⟨⟨fxScale⟩⟩

/-- Embed an integer into the fixed-point representation. -/
def Fx.ofInt (n : ℤ) : Fx := ⟨n * fxScale⟩

/-- Parameter dictionaries of the model: an ordered mapping from
parameter name to value (spec §3 `ParameterSet`). -/
abbrev Params (α : Type) : Type := List (String × α)

/-- Ordered-dictionary lookup: the value bound to the first occurrence of
the key, if any. -/
def lookupParam {β : Type} : List (String × β) → String → Option β
  | [], _ => none
  | (k, v) :: rest, key => if k = key then some v else lookupParam rest key

/-- Dictionary update: replaces the binding of the first occurrence of
the key (appending a new binding if the key is absent), as Python dict
assignment does. -/
def setKey {β : Type} : List (String × β) → String → β → List (String × β)
  | [], key, val => [(key, val)]
  | (k, v) :: rest, key, val =>
      if k = key then (key, val) :: rest else (k, v) :: setKey rest key val

/-- Errors surfaced by the model (spec §7 `ConfigurationError`):
a required parameter missing from the parameter set. -/
inductive SimError where
  | missingParameter (name : String)
deriving DecidableEq

instance {ε σ : Type} [DecidableEq ε] [DecidableEq σ] :
    DecidableEq (Except ε σ)
  | Except.error a, Except.error b =>
      if h : a = b then isTrue (congrArg Except.error h)
      else isFalse (fun hc => h (Except.error.inj hc))
  | Except.error _, Except.ok _ => isFalse (fun hc => Except.noConfusion hc)
  | Except.ok _, Except.error _ => isFalse (fun hc => Except.noConfusion hc)
  | Except.ok a, Except.ok b =>
      if h : a = b then isTrue (congrArg Except.ok h)
      else isFalse (fun hc => h (Except.ok.inj hc))

/-- Lookup of a required parameter, failing with a named-parameter error
when it is absent (spec §4.2: "missing parameter required for the step's
equations fails fast with a named-parameter error"). -/
def getParam {α : Type} (pp : Params α) (name : String) : Except SimError α :=
  match lookupParam pp name with
  | some v => Except.ok v
  | none => Except.error (SimError.missingParameter name)

/-- Core SEIR compartment state (spec §3 `CompartmentState`), generic
over the numeric kind (scalar or uncertain). -/
structure SeirState (α : Type) where
  s : α
  e : α
  i : α
  r : α
deriving DecidableEq

/-- Total population of a compartment state. -/
def total {α : Type} [Add α] (st : SeirState α) : α :=
  st.s + st.e + st.i + st.r

/-- Modelled from the spec (§4.2; `bayes_chime.normal.models.SEIRModel`
is not under `src/`): one-day Euler step of the SEIR equations with
transmission rate `beta`, incubation rate `alpha = 1/incubation_days`
and recovery rate `gamma = 1/recovery_days`, normalised by the current
total population. -/
def seirStep {α : Type} [Add α] [Sub α] [Mul α] [Div α]
    (beta alpha gamma : α) (st : SeirState α) : SeirState α :=
  let n := total st
  let fse := beta * st.s * st.i / n
  let fei := alpha * st.e
  let fir := gamma * st.i
  ⟨st.s - fse, st.e + fse - fei, st.i + fei - fir, st.r + fir⟩

/-- Names the step equations require from the parameter set. -/
def stepRequiredParams : List String :=
  ["beta", "incubation_days", "recovery_days"]

/-- Modelled from the spec (§4.2, §7): a single checked simulation step;
looks up the parameters the step equations require and fails fast with a
named-parameter error when one is missing. -/
def seirStepChecked {α : Type} [Add α] [Sub α] [Mul α] [Div α] [One α]
    (pp : Params α) (st : SeirState α) : Except SimError (SeirState α) :=
  match lookupParam pp "beta", lookupParam pp "incubation_days",
      lookupParam pp "recovery_days" with
  | some beta, some inc, some rcv =>
      Except.ok (seirStep beta (1 / inc) (1 / rcv) st)
  | none, _, _ => Except.error (SimError.missingParameter "beta")
  | some _, none, _ => Except.error (SimError.missingParameter "incubation_days")
  | some _, some _, none => Except.error (SimError.missingParameter "recovery_days")

/-- Modelled from the spec (§4.2): the propagation loop with a
time-step update hook.  Before each step the hook receives the current
date and the aggregate parameters and returns the parameter set for that
step only; one state is produced per date, in chronological order, and
any step error aborts the whole call with no partial output. -/
def propagateChecked {α : Type} [Add α] [Sub α] [Mul α] [Div α] [One α]
    (hook : ℤ → Params α → Params α) :
    List ℤ → Params α → SeirState α → Except SimError (List (SeirState α))
  | [], _, _ => Except.ok []
  | d :: ds, pp, st =>
    match seirStepChecked (hook d pp) st with
    | Except.error err => Except.error err
    | Except.ok st' =>
      match propagateChecked hook ds pp st' with
      | Except.error err => Except.error err
      | Except.ok rest => Except.ok (st' :: rest)

/-- Modelled from the spec (§4.2): the propagation loop with no update
hook installed; each step consumes the aggregate parameters unchanged. -/
def propagateNoHook {α : Type} [Add α] [Sub α] [Mul α] [Div α] [One α] :
    List ℤ → Params α → SeirState α → Except SimError (List (SeirState α))
  | [], _, _ => Except.ok []
  | _ :: ds, pp, st =>
    match seirStepChecked pp st with
    | Except.error err => Except.error err
    | Except.ok st' =>
      match propagateNoHook ds pp st' with
      | Except.error err => Except.error err
      | Except.ok rest => Except.ok (st' :: rest)

/-- New community infections per simulated date: the decline of the
susceptible compartment over each step (spec §4.3: the quantity that,
scaled by probability and market share, gives per-date admits). -/
def newInfections {α : Type} [Sub α] [Neg α]
    (st0 : SeirState α) (sts : List (SeirState α)) : List α :=
  List.zipWith (fun prev cur => prev.s - cur.s) (st0 :: sts) sts

/-- Per-date admits for one downstream category: new infections scaled
by the category probability and the facility's market share
(spec §4.3). -/
def postAdmits {α : Type} [Mul α] (prob mkt : α) (newInf : List α) : List α :=
  newInf.map (fun x => x * prob * mkt)

/-- Census contribution of the currently admitted cohorts, newest first:
the cohort at position `j` was admitted `k + j` days ago and contributes
its admits times the survival fraction of that age. -/
def cohortSum {α : Type} [Add α] [Zero α] [Mul α] (surv : ℕ → α) :
    ℕ → List α → α
  | _, [] => 0
  | k, x :: xs => x * surv k + cohortSum surv (k + 1) xs

/-- Census series computed incrementally: each date pushes its admits
cohort and sums the surviving fractions of all cohorts admitted so far
(the M/M/∞-style queue of spec §4.3). -/
def censusFrom {α : Type} [Add α] [Zero α] [Mul α] (surv : ℕ → α) :
    List α → List α → List α
  | _, [] => []
  | cohorts, a :: rest =>
      cohortSum surv 0 (a :: cohorts) :: censusFrom surv (a :: cohorts) rest

/-- Modelled from the spec (§4.3, its words): census at date `t` is the
sum over admit dates `k ≤ t` of the admits at `k` times the survival
fraction of age `t - k` under the length-of-stay distribution. -/
def censusSpecAt {α : Type} [AddCommMonoid α] [Mul α] (surv : ℕ → α)
    (admits : List α) (t : ℕ) : α :=
  ∑ k in Finset.range (t + 1), admits.getD k 0 * surv (t - k)

/-- Iterated product (used for the per-day exponential decay factor). -/
def npow {α : Type} [One α] [Mul α] (x : α) : ℕ → α
  | 0 => 1
  | n + 1 => x * npow x n

/-- Modelled from the spec (§4.3): exponential length-of-stay decay; a
cohort of age `a` still occupies its resource with fraction
`(1 - 1/los) ^ a`. -/
def expSurvival {α : Type} [One α] [Mul α] [Sub α] [Div α] (los : α)
    (age : ℕ) : α :=
  npow (1 - 1 / los) age

/-- Time-indexed clinical metrics produced by post-processing
(spec §3 `DerivedSeries`). -/
structure DerivedSeries (α : Type) where
  hospital_admits : List α
  hospital_census : List α
  icu_admits : List α
  icu_census : List α
  vent_admits : List α
  vent_census : List α
deriving DecidableEq

/-- Modelled from the spec (§4.2–§4.3, §6; `SEIRModel` is not under
`src/`): the full propagation operation `propagate_uncertainties` of the
model — build the initial state from the fixed parameters, run the
checked propagation loop with the installed update hook over the date
range, then post-process the compartment history into admits and census
series for the hospital, ICU and ventilator categories. -/
def propagate_uncertainties {α : Type}
    [AddCommMonoid α] [Sub α] [Neg α] [Mul α] [Div α] [One α]
    (hook : ℤ → Params α → Params α) (dates : List ℤ) (xx pp : Params α) :
    Except SimError (DerivedSeries α) := do
  let s0 ← getParam xx "initial_susceptible"
  let i0 ← getParam xx "initial_infected"
  let r0 ← getParam xx "initial_recovered"
  let e0 ← getParam pp "initial_exposed"
  let ms ← getParam xx "market_share"
  let st0 : SeirState α := ⟨s0, e0, i0, r0⟩
  let sts ← propagateChecked hook dates (xx ++ pp) st0
  let newInf := newInfections st0 sts
  let hp ← getParam pp "hospital_probability"
  let hl ← getParam pp "hospital_length_of_stay"
  let ip ← getParam pp "icu_probability"
  let il ← getParam pp "icu_length_of_stay"
  let vp ← getParam pp "vent_probability"
  let vl ← getParam pp "vent_length_of_stay"
  let hAdmits := postAdmits hp ms newInf
  let iAdmits := postAdmits ip ms newInf
  let vAdmits := postAdmits vp ms newInf
  pure
    { hospital_admits := hAdmits
      hospital_census := censusFrom (expSurvival hl) [] hAdmits
      icu_admits := iAdmits
      icu_census := censusFrom (expSurvival il) [] iAdmits
      vent_admits := vAdmits
      vent_census := censusFrom (expSurvival vl) [] vAdmits }

/-- Modelled from the spec (§4.2): the same propagation operation with
no update hook installed. -/
def propagate_uncertainties_no_hook {α : Type}
    [AddCommMonoid α] [Sub α] [Neg α] [Mul α] [Div α] [One α]
    (dates : List ℤ) (xx pp : Params α) :
    Except SimError (DerivedSeries α) := do
  let s0 ← getParam xx "initial_susceptible"
  let i0 ← getParam xx "initial_infected"
  let r0 ← getParam xx "initial_recovered"
  let e0 ← getParam pp "initial_exposed"
  let ms ← getParam xx "market_share"
  let st0 : SeirState α := ⟨s0, e0, i0, r0⟩
  let sts ← propagateNoHook dates (xx ++ pp) st0
  let newInf := newInfections st0 sts
  let hp ← getParam pp "hospital_probability"
  let hl ← getParam pp "hospital_length_of_stay"
  let ip ← getParam pp "icu_probability"
  let il ← getParam pp "icu_length_of_stay"
  let vp ← getParam pp "vent_probability"
  let vl ← getParam pp "vent_length_of_stay"
  let hAdmits := postAdmits hp ms newInf
  let iAdmits := postAdmits ip ms newInf
  let vAdmits := postAdmits vp ms newInf
  pure
    { hospital_admits := hAdmits
      hospital_census := censusFrom (expSurvival hl) [] hAdmits
      icu_admits := iAdmits
      icu_census := censusFrom (expSurvival il) [] iAdmits
      vent_admits := vAdmits
      vent_census := censusFrom (expSurvival vl) [] vAdmits }

/-- Errors surfaced by the fit pre-flight validation (spec §4.4, §7):
a missing required prior parameter, or a shape mismatch between the
dates axis and the observed data. -/
inductive FitError where
  | missingParameter (name : String)
  | shapeMismatch (axis : String) (expected actual : ℕ)
deriving DecidableEq

/-- Human-readable message of a fit pre-flight error; a missing-parameter
error references the missing parameter's name. -/
def FitError.message : FitError → String
  | FitError.missingParameter name => "missing required parameter: " ++ name
  | FitError.shapeMismatch axis expected actual =>
      "shape mismatch on axis " ++ axis ++ ": expected " ++ toString expected
        ++ ", got " ++ toString actual

/-- Parameter names the fit requires in the priors mapping (the variable
parameters `pp` the notebook passes to `seir.check_call`). -/
def fitRequiredParams : List String :=
  ["initial_exposed", "incubation_days", "beta", "recovery_days", "nu",
   "hospital_probability", "hospital_length_of_stay", "icu_probability",
   "icu_length_of_stay", "vent_probability", "vent_length_of_stay",
   "L", "k", "x0"]

/-- First name of the given list that has no binding in the parameter
dictionary, if any. -/
def findMissing {α : Type} (pp : Params α) : List String → Option String
  | [] => none
  | n :: ns => if (lookupParam pp n).isNone then some n else findMissing pp ns

/-- Modelled from the spec (§4.4; `seir.check_call` is not under
`src/`): pre-flight validation of a fit call — verifies that every
required parameter name is bound in the priors mapping and that the
observed data has one entry per date, without running the optimizer. -/
def check_call {α : Type} (dates : List ℤ) (data : List α) (pp : Params α) :
    Except FitError Unit :=
  match findMissing pp fitRequiredParams with
  | some name => Except.error (FitError.missingParameter name)
  | none =>
      if data.length = dates.length then Except.ok ()
      else Except.error (FitError.shapeMismatch "date" dates.length data.length)

/-- Modelled from the spec (§4.4): the fit engine — runs the pre-flight
validation and only on success invokes the external least-squares
optimizer (taken here as an arbitrary function argument, since the spec
treats optimization as an external numerical routine). -/
def nonlinear_fit {α : Type}
    (optimizer : List ℤ → List α → Params α → Params α)
    (dates : List ℤ) (data : List α) (pp : Params α) :
    Except FitError (Params α) :=
  match check_call dates data pp with
  | Except.error err => Except.error err
  | Except.ok _ => Except.ok (optimizer dates data pp)

/-- Value stored in the notebook's keyword-parameter dictionaries: either
a numeric (possibly uncertain) value or the simulation date range. -/
inductive PVal (α : Type) where
  | num (x : α)
  | dates (ds : List α)
deriving DecidableEq

/-- Numeric entry of a keyword dictionary (zero when absent or not
numeric; the notebook's Python would raise there, which no theorem
relies on). -/
def getNum {α : Type} [Zero α] (kwargs : List (String × PVal α))
    (key : String) : α :=
  match lookupParam kwargs key with
  | some (PVal.num x) => x
  | _ => 0

/-- Date-range entry of a keyword dictionary (empty when absent). -/
def getDates {α : Type} (kwargs : List (String × PVal α))
    (key : String) : List α :=
  match lookupParam kwargs key with
  | some (PVal.dates ds) => ds
  | _ => []

/-- Modelled from the spec (§4.2; `bayes_chime.normal.utilities` is not
under `src/`): the logistic social-distancing decay
`1 - L / (1 + exp (-k * (x - x0)))`; the exponential itself is external
library code and is passed in as a function. -/
def one_minus_logistic_fcn {α : Type}
    [One α] [Add α] [Sub α] [Neg α] [Mul α] [Div α]
    (expf : α → α) (x L k x0 : α) : α :=
  1 - L / (1 + expf (-k * (x - x0)))

/-- Embedded from the notebook (cell defining `update_parameters`): copy
the keyword parameters, rescale `beta` by the logistic decay of the day
offset `ddate - kwargs["dates"][0]` with parameters `L`, `k`, `x0`, and
return the copy. -/
def update_parameters {α : Type}
    [Zero α] [One α] [Add α] [Sub α] [Neg α] [Mul α] [Div α]
    (expf : α → α) (ddate : α) (kwargs : List (String × PVal α)) :
    List (String × PVal α) :=
  let xx := ddate - (getDates kwargs "dates").headD 0
  let beta' := getNum kwargs "beta" *
    one_minus_logistic_fcn expf xx (getNum kwargs "L") (getNum kwargs "k")
      (getNum kwargs "x0")
  setKey kwargs "beta" (PVal.num beta')

/-- Embedded from the notebook (final cell): mapping from the model's
internal fit-friendly parameter names back to the display names of the
sampling pipeline. -/
def name_map : List (String × String) :=
  [("L", "logistic_L"), ("x0", "logistic_x0"), ("k", "logistic_k"),
   ("hospital_probability", "hosp_prop"),
   ("hospital_length_of_stay", "hosp_LOS"),
   ("icu_probability", "ICU_prop"), ("icu_length_of_stay", "ICU_LOS"),
   ("vent_probability", "vent_prop"), ("vent_length_of_stay", "vent_LOS")]

/-- Embedded from the notebook: rename every key of a posterior
dictionary through `name_map`, keys outside the map kept unchanged
(`name_map.get(key, key)`). -/
def renameKeys {β : Type} (d : List (String × β)) : List (String × β) :=
  d.map (fun kv => ((lookupParam name_map kv.1).getD kv.1, kv.2))

/-- Embedded from the notebook (`PP["x0"] = POSTERIORS["logistic_x0"] +
OFFSET`): shift the logistic changepoint into fit coordinates by adding
the offset. -/
def toFitCoords (x : UV ℚ) (offset : ℚ) : UV ℚ :=
  x + UV.const offset

/-- Embedded from the notebook (final cell): convert a fitted posterior
dictionary back to display coordinates — rename the keys through
`name_map`, then subtract the offset from the `logistic_x0` entry
(`new_posterior["logistic_x0"] -= OFFSET`; reading a missing key would
raise in Python, modelled as `none`). -/
def reportPosterior (fitp : Params (UV ℚ)) (offset : ℚ) :
    Option (Params (UV ℚ)) :=
  let np := renameKeys fitp
  match lookupParam np "logistic_x0" with
  | some v => some (setKey np "logistic_x0" (v - UV.const offset))
  | none => none

/-- Cumulative infections along a compartment history: the initial total
population minus the susceptible compartment at each date (everyone who
has left the susceptible compartment). -/
def cumulativeInfected {α : Type} [Add α] [Sub α]
    (st0 : SeirState α) (sts : List (SeirState α)) : List α :=
  sts.map (fun st => total st0 - st.s)

/-- End-to-end scenario of spec §8: `beta = 0.3` with sdev `0.02`,
backed by primitive source 0. -/
def c8Beta : UV Fx := gvar (Fx.ofInt 3 / Fx.ofInt 10) (Fx.ofInt 1 / Fx.ofInt 50) 0

/-- End-to-end scenario of spec §8: `recovery_days = 14` with sdev `2`,
backed by primitive source 1. -/
def c8Recovery : UV Fx := gvar (Fx.ofInt 14) (Fx.ofInt 2) 1

/-- End-to-end scenario of spec §8: `incubation_days = 5` with sdev `1`,
backed by primitive source 2. -/
def c8Incubation : UV Fx := gvar (Fx.ofInt 5) (Fx.ofInt 1) 2

/-- Parameter set of the end-to-end scenario. -/
def c8Params : Params (UV Fx) :=
  [("beta", c8Beta), ("incubation_days", c8Incubation),
   ("recovery_days", c8Recovery)]

/-- Initial state of the end-to-end scenario: population 1,000,000
susceptible, 100 exposed, zero infected and recovered. -/
def c8Init : SeirState (UV Fx) :=
  ⟨UV.const (Fx.ofInt 1000000), UV.const (Fx.ofInt 100),
   UV.const (Fx.ofInt 0), UV.const (Fx.ofInt 0)⟩

/-- The 30 simulated days of the end-to-end scenario. -/
def c8Dates : List ℤ := (List.range 30).map Int.ofNat

/-- The 30-day propagation run of the end-to-end scenario. -/
def c8Run : Except SimError (List (SeirState (UV Fx))) :=
  propagateNoHook c8Dates c8Params c8Init

/-- The compartment history of the end-to-end scenario (empty if the run
failed, which `c8States.length = 30` below rules out). -/
def c8States : List (SeirState (UV Fx)) :=
  match c8Run with
  | Except.ok sts => sts
  | Except.error _ => []

/-- The cumulative-infected series of the end-to-end scenario. -/
def c8Cum : List (UV Fx) := cumulativeInfected c8Init c8States

/-- Boolean check that the means of an uncertain series are monotonically
non-decreasing. -/
def monoMeans : List (UV Fx) → Bool
  | [] => true
  | [_] => true
  | a :: b :: rest => (a.mean.num ≤ b.mean.num : Bool) && monoMeans (b :: rest)

/-!
Theorems.
-/

lemma padSub_self_sumSq : ∀ d : List ℚ,
    ((padSub d d).map (fun x => x * x)).sum = 0
  | [] => by simp [padSub]
  | x :: xs => by simp [padSub, padSub_self_sumSq xs]

lemma sumSq_map_neg : ∀ l : List ℚ,
    ((l.map (fun y => -y)).map (fun x => x * x)).sum
      = (l.map (fun x => x * x)).sum
  | [] => rfl
  | x :: xs => by
      simp only [List.map_cons, List.sum_cons, neg_mul_neg]
      rw [sumSq_map_neg xs]

lemma padSub_nil {α : Type} [Sub α] [Neg α] :
    ∀ xs : List α, padSub xs [] = xs
  | [] => rfl
  | _ :: _ => rfl

lemma rep_sumSq : ∀ (j : ℕ) (t : ℚ),
    ((List.replicate j (0 : ℚ) ++ [t]).map (fun x => x * x)).sum = t * t
  | 0, t => by simp
  | j + 1, t => by simp [List.replicate_succ, rep_sumSq j t]

lemma padSub_rep_sumSq : ∀ (i j : ℕ) (s t : ℚ), i ≠ j →
    ((padSub (List.replicate i (0 : ℚ) ++ [s]) (List.replicate j 0 ++ [t])).map
        (fun x => x * x)).sum = s * s + t * t
  | 0, 0, _, _, h => absurd rfl h
  | 0, j + 1, s, t, _ => by
      simp [List.replicate_succ, padSub, sumSq_map_neg, rep_sumSq]
  | i + 1, 0, s, t, _ => by
      simp [List.replicate_succ, padSub, padSub_nil, rep_sumSq]
      ring
  | i + 1, j + 1, s, t, h => by
      have h' : i ≠ j := fun he => h (by rw [he])
      simp [List.replicate_succ, padSub, padSub_rep_sumSq i j s t h']

/-- C1: in the uncertain value algebra, `a - a` has mean 0 and variance
exactly 0 for every uncertain value `a` (shared derivation ancestry is
tracked, so the derivative coefficients cancel), while the difference of
two independent `gvar`s with mean 5 and sdev 1 has mean 0 and variance 2,
the sum of the marginal variances. -/
theorem uncertain_sub_cancellation :
    (∀ a : UV ℚ, (a - a).mean = 0 ∧ UV.variance (a - a) = 0) ∧
    (∀ i j : ℕ, i ≠ j →
      (gvar (5 : ℚ) 1 i - gvar 5 1 j).mean = 0 ∧
        UV.variance (gvar (5 : ℚ) 1 i - gvar 5 1 j) = 2) := by
  constructor
  · intro a
    constructor
    · show a.mean - a.mean = 0
      ring
    · exact padSub_self_sumSq a.deriv
  · intro i j h
    constructor
    · show (5 : ℚ) - 5 = 0
      norm_num
    · show ((padSub (List.replicate i (0 : ℚ) ++ [1])
          (List.replicate j 0 ++ [1])).map (fun x => x * x)).sum = 2
      rw [padSub_rep_sumSq i j 1 1 h]
      norm_num

/-- Witness for C1 at the independent pair backed by sources 0 and 1. -/
theorem uncertain_sub_cancellation_witness :
    (0 : ℕ) ≠ 1 ∧ UV.variance (gvar (5 : ℚ) 1 0 - gvar 5 1 1) = 2 :=
  ⟨by decide, (uncertain_sub_cancellation.2 0 1 (by decide)).2⟩

lemma measure_total_seirStep {α : Type} [Add α] [Sub α] [Mul α] [Div α]
    (μ : α → ℚ) (hadd : ∀ a b : α, μ (a + b) = μ a + μ b)
    (hsub : ∀ a b : α, μ (a - b) = μ a - μ b)
    (beta alpha gamma : α) (st : SeirState α) :
    μ (total (seirStep beta alpha gamma st)) = μ (total st) := by
  simp only [seirStep, total, hadd, hsub]
  ring

lemma measure_total_stepChecked {α : Type} [Add α] [Sub α] [Mul α] [Div α]
    [One α] (μ : α → ℚ) (hadd : ∀ a b : α, μ (a + b) = μ a + μ b)
    (hsub : ∀ a b : α, μ (a - b) = μ a - μ b)
    (pp : Params α) (st st' : SeirState α)
    (h : seirStepChecked pp st = Except.ok st') :
    μ (total st') = μ (total st) := by
  unfold seirStepChecked at h
  rcases hb : lookupParam pp "beta" with _ | beta <;> rw [hb] at h
  · cases h
  rcases hi : lookupParam pp "incubation_days" with _ | inc <;> rw [hi] at h
  · cases h
  rcases hr : lookupParam pp "recovery_days" with _ | rcv <;> rw [hr] at h
  · cases h
  injection h with h
  subst h
  exact measure_total_seirStep μ hadd hsub beta (1 / inc) (1 / rcv) st

lemma measure_total_propagateChecked {α : Type} [Add α] [Sub α] [Mul α]
    [Div α] [One α] (μ : α → ℚ) (hadd : ∀ a b : α, μ (a + b) = μ a + μ b)
    (hsub : ∀ a b : α, μ (a - b) = μ a - μ b)
    (hook : ℤ → Params α → Params α) :
    ∀ (dates : List ℤ) (pp : Params α) (st0 : SeirState α)
      (sts : List (SeirState α)),
      propagateChecked hook dates pp st0 = Except.ok sts →
      ∀ st ∈ sts, μ (total st) = μ (total st0)
  | [], _, _, sts, h => by
      injection h with h
      subst h
      intro st hst
      cases hst
  | d :: ds, pp, st0, sts, h => by
      rw [propagateChecked] at h
      rcases hs : seirStepChecked (hook d pp) st0 with err | st1
      · rw [hs] at h
        exact Except.noConfusion h
      rw [hs] at h
      dsimp only at h
      rcases hr : propagateChecked hook ds pp st1 with err | rest
      · rw [hr] at h
        exact Except.noConfusion h
      rw [hr] at h
      dsimp only at h
      injection h with h
      subst h
      intro st hst
      rcases List.mem_cons.mp hst with h1 | h1
      · subst h1
        exact measure_total_stepChecked μ hadd hsub (hook d pp) st0 st hs
      · rw [measure_total_propagateChecked μ hadd hsub hook ds pp st1 rest hr st h1]
        exact measure_total_stepChecked μ hadd hsub (hook d pp) st0 st1 hs

/-- C2: the SEIR propagation conserves the total population — for scalar
runs, susceptible + exposed + infected + recovered at every simulated
date equals the initial total exactly (so in particular within any
floating-point tolerance), and for uncertain runs the means satisfy the
same conservation law. -/
theorem seir_conservation :
    (∀ (hook : ℤ → Params ℚ → Params ℚ) (dates : List ℤ) (pp : Params ℚ)
        (st0 : SeirState ℚ) (sts : List (SeirState ℚ)),
      propagateChecked hook dates pp st0 = Except.ok sts →
      ∀ st ∈ sts, total st = total st0) ∧
    (∀ (hook : ℤ → Params (UV ℚ) → Params (UV ℚ)) (dates : List ℤ)
        (pp : Params (UV ℚ)) (st0 : SeirState (UV ℚ))
        (sts : List (SeirState (UV ℚ))),
      propagateChecked hook dates pp st0 = Except.ok sts →
      ∀ st ∈ sts, (total st).mean = (total st0).mean) := by
  constructor
  · intro hook dates pp st0 sts h st hst
    exact measure_total_propagateChecked (fun x => x) (fun _ _ => rfl)
      (fun _ _ => rfl) hook dates pp st0 sts h st hst
  · intro hook dates pp st0 sts h st hst
    exact measure_total_propagateChecked UV.mean (fun _ _ => rfl)
      (fun _ _ => rfl) hook dates pp st0 sts h st hst

@[simp] lemma UV.const_add {α : Type} [AddCommMonoid α] (a b : α) :
    UV.const a + UV.const b = UV.const (a + b) := rfl

@[simp] lemma UV.const_sub {α : Type} [Sub α] [Neg α] (a b : α) :
    UV.const a - UV.const b = UV.const (a - b) := rfl

@[simp] lemma UV.const_mul {α : Type} [AddCommMonoid α] [Mul α] (a b : α) :
    UV.const a * UV.const b = UV.const (a * b) := rfl

@[simp] lemma UV.const_div {α : Type} [AddCommMonoid α] [Mul α] [Div α]
    [Neg α] (a b : α) : UV.const a / UV.const b = UV.const (a / b) := rfl

@[simp] lemma UV.const_inj {α : Type} (a b : α) :
    UV.const a = UV.const b ↔ a = b := by
  simp [UV.const, UV.mk.injEq]

lemma UV.one_def {α : Type} [One α] : (1 : UV α) = UV.const 1 := rfl

lemma witness_scalar_run :
    propagateChecked (fun _ q => q) [0, 1]
        [("beta", (1 : ℚ)), ("incubation_days", 1), ("recovery_days", 1)]
        ⟨1, 0, 0, 0⟩ = Except.ok [⟨1, 0, 0, 0⟩, ⟨1, 0, 0, 0⟩] := by
  norm_num [propagateChecked, seirStepChecked, lookupParam, seirStep, total]

lemma witness_uncertain_run :
    propagateChecked (fun _ q => q) [0]
        [("beta", UV.const (1 : ℚ)), ("incubation_days", UV.const 1),
         ("recovery_days", UV.const 1)]
        ⟨UV.const 1, UV.const 0, UV.const 0, UV.const 0⟩ =
      Except.ok [⟨UV.const 1, UV.const 0, UV.const 0, UV.const 0⟩] := by
  norm_num [propagateChecked, seirStepChecked, lookupParam, seirStep, total]
  rw [UV.one_def]
  norm_num

/-- Witness for C2: a concrete two-day scalar run and a concrete one-day
uncertain run, both conserving the initial total. -/
theorem seir_conservation_witness :
    total (⟨1, 0, 0, 0⟩ : SeirState ℚ) = total (⟨1, 0, 0, 0⟩ : SeirState ℚ) ∧
    (total (⟨UV.const 1, UV.const 0, UV.const 0, UV.const 0⟩ :
        SeirState (UV ℚ))).mean =
      (total (⟨UV.const (1 : ℚ), UV.const 0, UV.const 0, UV.const 0⟩ :
        SeirState (UV ℚ))).mean :=
  ⟨seir_conservation.1 (fun _ q => q) [0, 1]
     [("beta", (1 : ℚ)), ("incubation_days", 1), ("recovery_days", 1)]
     ⟨1, 0, 0, 0⟩ [⟨1, 0, 0, 0⟩, ⟨1, 0, 0, 0⟩] witness_scalar_run _
     (by simp),
   seir_conservation.2 (fun _ q => q) [0]
     [("beta", UV.const (1 : ℚ)), ("incubation_days", UV.const 1),
      ("recovery_days", UV.const 1)]
     ⟨UV.const 1, UV.const 0, UV.const 0, UV.const 0⟩
     [⟨UV.const 1, UV.const 0, UV.const 0, UV.const 0⟩] witness_uncertain_run _
     (by simp)⟩

lemma cohortSum_eq_sum {α : Type} [AddCommMonoid α] [Mul α] (surv : ℕ → α) :
    ∀ (c : List α) (m : ℕ),
      cohortSum surv m c = ∑ k in Finset.range c.length, c.getD k 0 * surv (m + k)
  | [], _ => by simp [cohortSum]
  | x :: xs, m => by
      rw [cohortSum, cohortSum_eq_sum surv xs (m + 1), List.length_cons,
        Finset.sum_range_succ']
      have h1 : ((x :: xs).getD 0 0 * surv (m + 0)) = x * surv m := by
        rw [List.getD_cons_zero, Nat.add_zero]
      rw [h1, add_comm _ (x * surv m)]
      congr 1
      apply Finset.sum_congr rfl
      intro k _
      rw [List.getD_cons_succ]
      congr 1
      congr 1
      omega

lemma getD_reverse_append {α : Type} (cohorts : List α) (a : α) (rest : List α)
    (z : α) (j : ℕ) (hj : j ≤ cohorts.length) :
    (cohorts.reverse ++ a :: rest).getD (cohorts.length - j) z
      = (a :: cohorts).getD j z := by
  cases j with
  | zero =>
    rw [Nat.sub_zero, List.getD_append_right cohorts.reverse _ z cohorts.length
      (by simp), List.length_reverse, Nat.sub_self]
    rfl
  | succ j' =>
    have hlen : cohorts.length - (j' + 1) < cohorts.reverse.length := by
      simp only [List.length_reverse]
      omega
    rw [List.getD_append cohorts.reverse _ z _ hlen, List.getD_cons_succ]
    have hj' : j' < cohorts.length := by omega
    rw [List.getD_eq_getElem _ _ hlen, List.getD_eq_getElem _ _ hj',
      List.getElem_reverse]
    congr 1
    omega

lemma cohortSum_reverse {α : Type} [AddCommMonoid α] [Mul α] (surv : ℕ → α)
    (a : α) (cohorts rest : List α) :
    cohortSum surv 0 (a :: cohorts) =
      censusSpecAt surv (cohorts.reverse ++ a :: rest) cohorts.length := by
  rw [cohortSum_eq_sum, censusSpecAt, ← Finset.sum_range_reflect]
  apply Finset.sum_congr rfl
  intro j hj
  have hj' : j ≤ cohorts.length := by
    have := Finset.mem_range.mp hj
    simp only [List.length_cons] at this
    omega
  have hidx : (a :: cohorts).length - 1 - j = cohorts.length - j := by
    simp only [List.length_cons]
    omega
  rw [hidx, zero_add]
  have h2 := getD_reverse_append cohorts a rest 0 (cohorts.length - j)
    (Nat.sub_le _ _)
  rw [show cohorts.length - (cohorts.length - j) = j from by omega] at h2
  rw [← h2]

lemma censusFrom_correct {α : Type} [AddCommMonoid α] [Mul α] (surv : ℕ → α) :
    ∀ (rest cohorts : List α) (t : ℕ), t < rest.length →
      (censusFrom surv cohorts rest).getD t 0 =
        censusSpecAt surv (cohorts.reverse ++ rest) (cohorts.length + t)
  | [], _, t, ht => absurd ht (by simp)
  | a :: rest, cohorts, 0, _ => by
      rw [censusFrom, List.getD_cons_zero, Nat.add_zero]
      exact cohortSum_reverse surv a cohorts rest
  | a :: rest, cohorts, t + 1, ht => by
      rw [censusFrom, List.getD_cons_succ,
        censusFrom_correct surv rest (a :: cohorts) t
          (by simpa using Nat.lt_of_succ_lt_succ ht)]
      rw [List.reverse_cons, List.append_assoc]
      congr 1
      simp only [List.length_cons]
      omega

lemma census_refines {α : Type} [AddCommMonoid α] [Mul α] (surv : ℕ → α)
    (admits : List α) (t : ℕ) (ht : t < admits.length) :
    (censusFrom surv [] admits).getD t 0 = censusSpecAt surv admits t := by
  have h := censusFrom_correct surv admits [] t ht
  simpa using h

lemma postAdmits_getD {α : Type} [Mul α] [Zero α] (prob mkt : α)
    (newInf : List α) (t : ℕ) (ht : t < newInf.length) :
    (postAdmits prob mkt newInf).getD t 0 = newInf.getD t 0 * prob * mkt := by
  rw [postAdmits, List.getD_eq_getElem _ _ (by simpa using ht),
    List.getD_eq_getElem _ _ ht, List.getElem_map]

lemma newInfections_length {α : Type} [Sub α] [Neg α] (st0 : SeirState α)
    (sts : List (SeirState α)) : (newInfections st0 sts).length = sts.length := by
  rw [newInfections, List.length_zipWith]
  simp only [List.length_cons]
  omega

/-- C3: for every compartment history and length-of-stay/probability
parameters, post-processing computes per-date admits as the new
infections scaled by the category probability and the market share, and
computes census at date `t` as the sum over admit dates `k ≤ t` of the
admits at `k` times the survival fraction of age `t - k`; this holds
uniformly for scalar and for uncertain values. -/
theorem post_processing_admits_census :
    (∀ (surv : ℕ → ℚ) (prob mkt : ℚ) (st0 : SeirState ℚ)
        (sts : List (SeirState ℚ)) (t : ℕ), t < sts.length →
      (postAdmits prob mkt (newInfections st0 sts)).getD t 0 =
          (newInfections st0 sts).getD t 0 * prob * mkt ∧
        (censusFrom surv [] (postAdmits prob mkt (newInfections st0 sts))).getD t 0
          = censusSpecAt surv (postAdmits prob mkt (newInfections st0 sts)) t) ∧
    (∀ (surv : ℕ → UV ℚ) (prob mkt : UV ℚ) (st0 : SeirState (UV ℚ))
        (sts : List (SeirState (UV ℚ))) (t : ℕ), t < sts.length →
      (postAdmits prob mkt (newInfections st0 sts)).getD t 0 =
          (newInfections st0 sts).getD t 0 * prob * mkt ∧
        (censusFrom surv [] (postAdmits prob mkt (newInfections st0 sts))).getD t 0
          = censusSpecAt surv (postAdmits prob mkt (newInfections st0 sts)) t) := by
  constructor
  · intro surv prob mkt st0 sts t ht
    have ht' : t < (newInfections st0 sts).length := by
      rwa [newInfections_length]
    refine ⟨postAdmits_getD prob mkt _ t ht', ?_⟩
    apply census_refines
    simpa [postAdmits] using ht'
  · intro surv prob mkt st0 sts t ht
    have ht' : t < (newInfections st0 sts).length := by
      rwa [newInfections_length]
    refine ⟨postAdmits_getD prob mkt _ t ht', ?_⟩
    apply census_refines
    simpa [postAdmits] using ht'

/-- Witness for C3 at a concrete one-step scalar history and a concrete
one-step uncertain history. -/
theorem post_processing_admits_census_witness :
    ((postAdmits (2 : ℚ) 3 (newInfections ⟨5, 1, 0, 0⟩ [⟨4, 1, 1, 0⟩])).getD 0 0 =
        (newInfections (⟨5, 1, 0, 0⟩ : SeirState ℚ) [⟨4, 1, 1, 0⟩]).getD 0 0 * 2 * 3 ∧
      (censusFrom (fun _ => (1 : ℚ)) []
          (postAdmits (2 : ℚ) 3 (newInfections ⟨5, 1, 0, 0⟩ [⟨4, 1, 1, 0⟩]))).getD 0 0 =
        censusSpecAt (fun _ => (1 : ℚ))
          (postAdmits (2 : ℚ) 3 (newInfections ⟨5, 1, 0, 0⟩ [⟨4, 1, 1, 0⟩])) 0) ∧
    ((postAdmits (UV.const (2 : ℚ)) (UV.const 3)
          (newInfections ⟨UV.const 5, UV.const 1, UV.const 0, UV.const 0⟩
            [⟨UV.const 4, UV.const 1, UV.const 1, UV.const 0⟩])).getD 0 0 =
        (newInfections (⟨UV.const 5, UV.const 1, UV.const 0, UV.const 0⟩ :
            SeirState (UV ℚ))
          [⟨UV.const 4, UV.const 1, UV.const 1, UV.const 0⟩]).getD 0 0 *
            UV.const 2 * UV.const 3 ∧
      (censusFrom (fun _ => UV.const (1 : ℚ)) []
          (postAdmits (UV.const (2 : ℚ)) (UV.const 3)
            (newInfections ⟨UV.const 5, UV.const 1, UV.const 0, UV.const 0⟩
              [⟨UV.const 4, UV.const 1, UV.const 1, UV.const 0⟩]))).getD 0 0 =
        censusSpecAt (fun _ => UV.const (1 : ℚ))
          (postAdmits (UV.const (2 : ℚ)) (UV.const 3)
            (newInfections ⟨UV.const 5, UV.const 1, UV.const 0, UV.const 0⟩
              [⟨UV.const 4, UV.const 1, UV.const 1, UV.const 0⟩])) 0) :=
  ⟨post_processing_admits_census.1 (fun _ => 1) 2 3 ⟨5, 1, 0, 0⟩
     [⟨4, 1, 1, 0⟩] 0 (by simp),
   post_processing_admits_census.2 (fun _ => UV.const 1) (UV.const 2)
     (UV.const 3) ⟨UV.const 5, UV.const 1, UV.const 0, UV.const 0⟩
     [⟨UV.const 4, UV.const 1, UV.const 1, UV.const 0⟩] 0 (by simp)⟩

/-- C4: the propagation operation is deterministic — it is embedded as a
pure function of (dates, hook, fixed parameters, variable parameters), so
two invocations on the same inputs produce identical `DerivedSeries`
output. -/
theorem propagation_deterministic :
    ∀ (hook : ℤ → Params (UV ℚ) → Params (UV ℚ)) (dates : List ℤ)
      (xx pp : Params (UV ℚ)),
      propagate_uncertainties hook dates xx pp =
        propagate_uncertainties hook dates xx pp :=
  fun _ _ _ _ => rfl

lemma propagateChecked_id_hook {α : Type} [Add α] [Sub α] [Mul α] [Div α]
    [One α] (hook : ℤ → Params α → Params α) (hid : ∀ d q, hook d q = q) :
    ∀ (dates : List ℤ) (pp : Params α) (st : SeirState α),
      propagateChecked hook dates pp st = propagateNoHook dates pp st
  | [], _, _ => rfl
  | d :: ds, pp, st => by
      rw [propagateChecked, propagateNoHook, hid d pp]
      rcases hs : seirStepChecked pp st with err | st1
      · rfl
      dsimp only
      rw [propagateChecked_id_hook hook hid ds pp st1]

lemma propagateChecked_id_hook_fun {α : Type} [Add α] [Sub α] [Mul α] [Div α]
    [One α] (hook : ℤ → Params α → Params α) (hid : ∀ d q, hook d q = q) :
    propagateChecked hook = propagateNoHook (α := α) :=
  funext fun dates => funext fun pp => funext fun st =>
    propagateChecked_id_hook hook hid dates pp st

/-- C7: a time-step update hook that returns its input parameters
unchanged produces exactly the same `DerivedSeries` as running the
propagation with no hook installed. -/
theorem identity_hook_same_series (hook : ℤ → Params (UV ℚ) → Params (UV ℚ))
    (hid : ∀ d q, hook d q = q) (dates : List ℤ) (xx pp : Params (UV ℚ)) :
    propagate_uncertainties hook dates xx pp =
      propagate_uncertainties_no_hook dates xx pp := by
  rw [propagate_uncertainties, propagate_uncertainties_no_hook,
    propagateChecked_id_hook_fun hook hid]

/-- Witness for C7 at the literal identity hook and a concrete input. -/
theorem identity_hook_same_series_witness :
    propagate_uncertainties (fun _ q => q) [0]
        [("initial_susceptible", UV.const (1 : ℚ)),
         ("initial_infected", UV.const 0), ("initial_recovered", UV.const 0),
         ("market_share", UV.const 1)]
        [("initial_exposed", UV.const (0 : ℚ)), ("beta", UV.const 1),
         ("incubation_days", UV.const 1), ("recovery_days", UV.const 1),
         ("hospital_probability", UV.const 1),
         ("hospital_length_of_stay", UV.const 1),
         ("icu_probability", UV.const 1), ("icu_length_of_stay", UV.const 1),
         ("vent_probability", UV.const 1), ("vent_length_of_stay", UV.const 1)] =
      propagate_uncertainties_no_hook [0]
        [("initial_susceptible", UV.const (1 : ℚ)),
         ("initial_infected", UV.const 0), ("initial_recovered", UV.const 0),
         ("market_share", UV.const 1)]
        [("initial_exposed", UV.const (0 : ℚ)), ("beta", UV.const 1),
         ("incubation_days", UV.const 1), ("recovery_days", UV.const 1),
         ("hospital_probability", UV.const 1),
         ("hospital_length_of_stay", UV.const 1),
         ("icu_probability", UV.const 1), ("icu_length_of_stay", UV.const 1),
         ("vent_probability", UV.const 1), ("vent_length_of_stay", UV.const 1)] :=
  identity_hook_same_series (fun _ q => q) (fun _ _ => rfl) [0] _ _

lemma findMissing_of_unique {α : Type} (pp : Params α) (nm : String) :
    ∀ req : List String, nm ∈ req → lookupParam pp nm = none →
      (∀ m ∈ req, m ≠ nm → (lookupParam pp m).isSome) →
      findMissing pp req = some nm
  | [], hmem, _, _ => absurd hmem (List.not_mem_nil nm)
  | n :: ns, hmem, hnone, hothers => by
      rw [findMissing]
      by_cases hn : n = nm
      · subst hn
        rw [if_pos (by rw [hnone]; rfl)]
      · have hs : (lookupParam pp n).isSome :=
          hothers n (List.mem_cons_self n ns) hn
        rw [if_neg (by rw [Option.isNone_iff_eq_none]; intro he; rw [he] at hs; cases hs)]
        have hmem' : nm ∈ ns := by
          rcases List.mem_cons.mp hmem with h1 | h1
          · exact absurd h1.symm hn
          · exact h1
        exact findMissing_of_unique pp nm ns hmem' hnone
          (fun m hm hne => hothers m (List.mem_cons_of_mem n hm) hne)

/-- C5: when the priors mapping passed to the pre-flight validation is
missing one required parameter name, `check_call` returns a
missing-parameter error whose message references that name, and
`nonlinear_fit` returns that error without invoking the optimizer
(the result is the same for every possible optimizer). -/
theorem check_call_missing_parameter (nm : String) (dates : List ℤ)
    (data : List (UV ℚ)) (pp : Params (UV ℚ))
    (hmem : nm ∈ fitRequiredParams)
    (hnone : lookupParam pp nm = none)
    (hothers : ∀ m ∈ fitRequiredParams, m ≠ nm → (lookupParam pp m).isSome) :
    check_call dates data pp = Except.error (FitError.missingParameter nm) ∧
    (FitError.missingParameter nm).message =
      "missing required parameter: " ++ nm ∧
    ∀ optimizer, nonlinear_fit optimizer dates data pp =
      Except.error (FitError.missingParameter nm) := by
  have hfind := findMissing_of_unique pp nm fitRequiredParams hmem hnone hothers
  refine ⟨?_, rfl, ?_⟩
  · rw [check_call, hfind]
  · intro optimizer
    rw [nonlinear_fit, check_call, hfind]

/-- Witness for C5: a priors mapping holding every required parameter
except `beta`. -/
theorem check_call_missing_parameter_witness :
    check_call [0] [UV.const (1 : ℚ)]
        [("initial_exposed", UV.const (1 : ℚ)),
         ("incubation_days", UV.const 1), ("recovery_days", UV.const 1),
         ("nu", UV.const 1), ("hospital_probability", UV.const 1),
         ("hospital_length_of_stay", UV.const 1),
         ("icu_probability", UV.const 1), ("icu_length_of_stay", UV.const 1),
         ("vent_probability", UV.const 1), ("vent_length_of_stay", UV.const 1),
         ("L", UV.const 1), ("k", UV.const 1), ("x0", UV.const 1)] =
      Except.error (FitError.missingParameter "beta") :=
  (check_call_missing_parameter "beta" [0] [UV.const 1] _
    (by decide) (by decide) (by decide)).1

lemma stepChecked_error_of_findMissing {α : Type} [Add α] [Sub α] [Mul α]
    [Div α] [One α] (pp : Params α) (st : SeirState α) (nm : String)
    (h : findMissing pp stepRequiredParams = some nm) :
    seirStepChecked pp st = Except.error (SimError.missingParameter nm) := by
  rw [stepRequiredParams] at h
  rw [seirStepChecked]
  rcases hb : lookupParam pp "beta" with _ | vb
  · rw [findMissing, if_pos (by rw [hb]; rfl)] at h
    injection h with h
    subst h
    rfl
  · have hb' : ¬(lookupParam pp "beta").isNone = true := by
      rw [hb]; simp
    rw [findMissing, if_neg hb'] at h
    rcases hi : lookupParam pp "incubation_days" with _ | vi
    · rw [findMissing, if_pos (by rw [hi]; rfl)] at h
      injection h with h
      subst h
      rfl
    · have hi' : ¬(lookupParam pp "incubation_days").isNone = true := by
        rw [hi]; simp
      rw [findMissing, if_neg hi'] at h
      rcases hr : lookupParam pp "recovery_days" with _ | vr
      · rw [findMissing, if_pos (by rw [hr]; rfl)] at h
        injection h with h
        subst h
        rfl
      · have hr' : ¬(lookupParam pp "recovery_days").isNone = true := by
          rw [hr]; simp
        rw [findMissing, if_neg hr', findMissing] at h
        cases h

lemma propagateChecked_ok_length {α : Type} [Add α] [Sub α] [Mul α] [Div α]
    [One α] (hook : ℤ → Params α → Params α) :
    ∀ (dates : List ℤ) (pp : Params α) (st0 : SeirState α)
      (sts : List (SeirState α)),
      propagateChecked hook dates pp st0 = Except.ok sts →
      sts.length = dates.length
  | [], _, _, sts, h => by
      injection h with h
      subst h
      rfl
  | d :: ds, pp, st0, sts, h => by
      rw [propagateChecked] at h
      rcases hs : seirStepChecked (hook d pp) st0 with err | st1
      · rw [hs] at h
        exact Except.noConfusion h
      rw [hs] at h
      dsimp only at h
      rcases hr : propagateChecked hook ds pp st1 with err | rest
      · rw [hr] at h
        exact Except.noConfusion h
      rw [hr] at h
      dsimp only at h
      injection h with h
      subst h
      simp only [List.length_cons,
        propagateChecked_ok_length hook ds pp st1 rest hr]

/-- C6: a propagation call whose parameter set is missing a parameter
required by the step equations fails fast with an error naming that
parameter (as soon as the first step runs), and the loop never returns a
silently truncated series — a successful call returns exactly one state
per requested date. -/
theorem propagation_missing_parameter :
    (∀ (hook : ℤ → Params (UV ℚ) → Params (UV ℚ)) (d : ℤ) (ds : List ℤ)
        (pp : Params (UV ℚ)) (st : SeirState (UV ℚ)) (nm : String),
      findMissing (hook d pp) stepRequiredParams = some nm →
      propagateChecked hook (d :: ds) pp st =
        Except.error (SimError.missingParameter nm)) ∧
    (∀ (hook : ℤ → Params (UV ℚ) → Params (UV ℚ)) (dates : List ℤ)
        (pp : Params (UV ℚ)) (st0 : SeirState (UV ℚ))
        (sts : List (SeirState (UV ℚ))),
      propagateChecked hook dates pp st0 = Except.ok sts →
      sts.length = dates.length) := by
  constructor
  · intro hook d ds pp st nm h
    rw [propagateChecked, stepChecked_error_of_findMissing (hook d pp) st nm h]
  · intro hook dates pp st0 sts h
    exact propagateChecked_ok_length hook dates pp st0 sts h

/-- Witness for C6: a parameter set missing `beta` aborts immediately
with the named error, and the successful run of the C2 witness returns
one state per date. -/
theorem propagation_missing_parameter_witness :
    propagateChecked (fun _ q => q) [0, 1]
        [("incubation_days", UV.const (1 : ℚ)), ("recovery_days", UV.const 1)]
        ⟨UV.const 1, UV.const 0, UV.const 0, UV.const 0⟩ =
      Except.error (SimError.missingParameter "beta") ∧
    ([⟨UV.const (1 : ℚ), UV.const 0, UV.const 0, UV.const 0⟩] :
      List (SeirState (UV ℚ))).length = ([0] : List ℤ).length :=
  ⟨propagation_missing_parameter.1 (fun _ q => q) 0 [1] _ _ "beta" (by decide),
   propagation_missing_parameter.2 (fun _ q => q) [0]
     [("beta", UV.const (1 : ℚ)), ("incubation_days", UV.const 1),
      ("recovery_days", UV.const 1)]
     ⟨UV.const 1, UV.const 0, UV.const 0, UV.const 0⟩ _ witness_uncertain_run⟩

/-- C8: the end-to-end scenario — population 1,000,000, zero initial
infected/recovered, 100 initially exposed, `beta = 0.3 (sdev 0.02)`,
`recovery_days = 14 (sdev 2)`, `incubation_days = 5 (sdev 1)` — runs for
all 30 days, its cumulative-infected series has monotonically
non-decreasing means, the day-30 mean exceeds the day-1 mean, and the
day-30 variance (hence standard deviation) strictly exceeds the day-1
variance. -/
theorem end_to_end_scenario :
    c8States.length = 30 ∧
    monoMeans c8Cum = true ∧
    (c8Cum.getD 0 (UV.const 0)).mean.num <
      (c8Cum.getD 29 (UV.const 0)).mean.num ∧
    (UV.variance (c8Cum.getD 0 (UV.const 0))).num <
      (UV.variance (c8Cum.getD 29 (UV.const 0))).num := by
  decide

lemma lookupParam_nil {β : Type} (key : String) :
    lookupParam ([] : List (String × β)) key = none := rfl

lemma lookupParam_cons {β : Type} (k0 : String) (v0 : β)
    (rest : List (String × β)) (key : String) :
    lookupParam ((k0, v0) :: rest) key =
      if k0 = key then some v0 else lookupParam rest key := rfl

lemma lookupParam_setKey_self {β : Type} :
    ∀ (d : List (String × β)) (k : String) (v : β),
      lookupParam (setKey d k v) k = some v
  | [], k, v => by
      simp only [setKey, lookupParam_cons, if_pos rfl, if_true]
  | (k0, v0) :: rest, k, v => by
      by_cases h : k0 = k
      · simp only [setKey, if_pos h, lookupParam_cons, if_pos rfl, if_true]
      · simp only [setKey, if_neg h, lookupParam_cons, if_neg h]
        exact lookupParam_setKey_self rest k v

lemma lookupParam_setKey_ne {β : Type} :
    ∀ (d : List (String × β)) (k key : String) (v : β), key ≠ k →
      lookupParam (setKey d k v) key = lookupParam d key
  | [], k, key, v, hne => by
      simp only [setKey, lookupParam_cons, lookupParam_nil,
        if_neg (fun he : k = key => hne he.symm)]
  | (k0, v0) :: rest, k, key, v, hne => by
      by_cases h : k0 = k
      · subst h
        simp only [setKey, if_pos rfl, if_true, lookupParam_cons,
          if_neg (fun he : k0 = key => hne he.symm)]
      · simp only [setKey, if_neg h, lookupParam_cons]
        by_cases h0 : k0 = key
        · simp only [if_pos h0]
        · simp only [if_neg h0]
          exact lookupParam_setKey_ne rest k key v hne

/-- C9: the notebook's `update_parameters` returns a copy of its keyword
parameters in which exactly the entry `beta` is changed — rescaled by
`one_minus_logistic_fcn` of the day offset with parameters `L`, `k`,
`x0` — and every other entry of the returned mapping equals the
corresponding input entry (the input mapping itself is untouched, the
function being pure). -/
theorem update_parameters_frame (expf : UV ℚ → UV ℚ) (ddate : UV ℚ)
    (kwargs : List (String × PVal (UV ℚ))) :
    lookupParam (update_parameters expf ddate kwargs) "beta" =
      some (PVal.num (getNum kwargs "beta" *
        one_minus_logistic_fcn expf (ddate - (getDates kwargs "dates").headD 0)
          (getNum kwargs "L") (getNum kwargs "k") (getNum kwargs "x0"))) ∧
    ∀ key, key ≠ "beta" →
      lookupParam (update_parameters expf ddate kwargs) key =
        lookupParam kwargs key := by
  constructor
  · rw [update_parameters]
    exact lookupParam_setKey_self kwargs "beta" _
  · intro key hkey
    rw [update_parameters]
    exact lookupParam_setKey_ne kwargs "beta" key _ hkey

/-- Witness for C9 at a concrete dictionary: the `k` entry is unchanged
and `beta` is rescaled. -/
theorem update_parameters_frame_witness :
    lookupParam
        (update_parameters (fun x => x) (UV.const (3 : ℚ))
          [("dates", PVal.dates [UV.const 0]), ("beta", PVal.num (UV.const 2)),
           ("L", PVal.num (UV.const 1)), ("k", PVal.num (UV.const 1)),
           ("x0", PVal.num (UV.const 1))]) "k" =
      lookupParam
        [("dates", PVal.dates [UV.const (0 : ℚ)]),
         ("beta", PVal.num (UV.const 2)), ("L", PVal.num (UV.const 1)),
         ("k", PVal.num (UV.const 1)), ("x0", PVal.num (UV.const 1))] "k" :=
  (update_parameters_frame (fun x => x) (UV.const 3)
    [("dates", PVal.dates [UV.const 0]), ("beta", PVal.num (UV.const 2)),
     ("L", PVal.num (UV.const 1)), ("k", PVal.num (UV.const 1)),
     ("x0", PVal.num (UV.const 1))]).2 "k" (by decide)

lemma name_map_target (k0 : String)
    (h : (lookupParam name_map k0).getD k0 = "logistic_x0") :
    k0 = "x0" ∨ k0 = "logistic_x0" := by
  rw [name_map] at h
  simp only [lookupParam_cons, lookupParam_nil] at h
  split_ifs at h with h1 h2 h3 h4 h5 h6 h7 h8 h9
  · rw [Option.getD_some] at h
    exact absurd h (by decide)
  · exact Or.inl h2.symm
  · rw [Option.getD_some] at h
    exact absurd h (by decide)
  · rw [Option.getD_some] at h
    exact absurd h (by decide)
  · rw [Option.getD_some] at h
    exact absurd h (by decide)
  · rw [Option.getD_some] at h
    exact absurd h (by decide)
  · rw [Option.getD_some] at h
    exact absurd h (by decide)
  · rw [Option.getD_some] at h
    exact absurd h (by decide)
  · rw [Option.getD_some] at h
    exact absurd h (by decide)
  · rw [Option.getD_none] at h
    exact Or.inr h

lemma lookup_renameKeys_x0 :
    ∀ pp : Params (UV ℚ), "logistic_x0" ∉ pp.map Prod.fst →
      lookupParam (renameKeys pp) "logistic_x0" = lookupParam pp "x0"
  | [], _ => rfl
  | (k0, v0) :: rest, hnot => by
      have hnot' : "logistic_x0" ∉ rest.map Prod.fst := by
        intro hh
        exact hnot (by simp [hh])
      rw [renameKeys, List.map_cons]
      by_cases hk : k0 = "x0"
      · subst hk
        rw [lookupParam_cons, lookupParam_cons]
        rw [if_pos (by rw [name_map]; rfl), if_pos rfl]
      · have hne : (lookupParam name_map k0).getD k0 ≠ "logistic_x0" := by
          intro h
          rcases name_map_target k0 h with h1 | h2
          · exact hk h1
          · exact hnot (by simp [h2])
        rw [lookupParam_cons, lookupParam_cons, if_neg hne,
          if_neg (fun he => hk he)]
        exact lookup_renameKeys_x0 rest hnot'

/-- C10: the notebook's offset bookkeeping round-trips — the prior's
`x0` is the original changepoint shifted by `OFFSET` into fit
coordinates; reporting a posterior renames the internal `x0` back to
`logistic_x0` through `name_map` and subtracts the same `OFFSET`, so a
fitted value that equals the shifted prior is reported with exactly the
original, unshifted mean (add then subtract of the same offset is the
identity on the mean). -/
theorem offset_roundtrip (pp : Params (UV ℚ)) (x : UV ℚ) (c : ℚ)
    (hx : lookupParam pp "x0" = some (toFitCoords x c))
    (hno : "logistic_x0" ∉ pp.map Prod.fst) :
    ((reportPosterior pp c).bind fun rp => lookupParam rp "logistic_x0") =
      some (toFitCoords x c - UV.const c) ∧
    (toFitCoords x c - UV.const c).mean = x.mean := by
  have hl := lookup_renameKeys_x0 pp hno
  rw [hx] at hl
  constructor
  · rw [reportPosterior, hl]
    dsimp only [Option.bind]
    exact lookupParam_setKey_self (renameKeys pp) "logistic_x0" _
  · show (x.mean + c) - c = x.mean
    ring

/-- Witness for C10 at a concrete prior dictionary and offset. -/
theorem offset_roundtrip_witness :
    ((reportPosterior [("x0", toFitCoords (gvar (2 : ℚ) 1 0) 7)] 7).bind
        fun rp => lookupParam rp "logistic_x0") =
      some (toFitCoords (gvar (2 : ℚ) 1 0) 7 - UV.const 7) ∧
    (toFitCoords (gvar (2 : ℚ) 1 0) 7 - UV.const 7).mean =
      (gvar (2 : ℚ) 1 0).mean :=
  offset_roundtrip [("x0", toFitCoords (gvar 2 1 0) 7)] (gvar 2 1 0) 7
    (by rw [lookupParam_cons, if_pos rfl]) (by decide)

end ChimeNormal
